import Mathlib

/-!
Verification of the AAIT sales dashboard's sync-and-reconciliation core.

The JavaScript data layer (`src/data.js`), the notification engine
(`notifications.js`, refactored file-based-audio version) and the audio
helper are shallowly embedded below.  Pure functions are translated
directly; the timer-driven Sync Engine session inside `startAutoSync`
is modelled as a state machine whose events are the atomic segments of
the single-threaded event loop (tick start, first-fetch resolution,
verification-fetch resolution); localStorage is modelled as an explicit
`Option (List Meeting)` cache threaded through the steps.

JavaScript's `Number(s)` coercion is modelled on the fragment actually
reachable here (trimmed empty string ↦ 0, trimmed nonnegative decimal
digit strings ↦ their value, everything else ↦ NaN, i.e. `none`); time
strings flowing into the alert engine are either `parseTimeStr` outputs
or raw pass-through text, both of which stay inside that fragment.
-/

namespace Dashboard

/-! ## Generic string helpers mirroring the JS string operations -/

/-- ASCII lower-casing of a single character (JS `toLowerCase`/regex `i`
flag on the ASCII letters; Arabic characters are unaffected). -/
def asciiLowerChar (c : Char) : Char :=
  if 'A' ≤ c ∧ c ≤ 'Z' then Char.ofNat (c.toNat + 32) else c

/-- ASCII lower-casing of a string. -/
def lowerStr (s : String) : String :=
  String.mk (s.data.map asciiLowerChar)

/-- JS `String.prototype.trim` (whitespace at both ends removed).
Implemented over the character list so that the kernel can evaluate it. -/
def jsTrim (s : String) : String :=
  ⟨((s.data.dropWhile Char.isWhitespace).reverse.dropWhile Char.isWhitespace).reverse⟩

/-- Split a character list at every separator character, keeping empty
segments (JS `String.prototype.split` with a character class). -/
def splitChars (p : Char → Bool) : List Char → List (List Char)
  | [] => [[]]
  | c :: rest =>
    if p c then [] :: splitChars p rest
    else
      match splitChars p rest with
      | h :: t => (c :: h) :: t
      | [] => [[c]]

/-- JS `String.prototype.split` on a single-character separator class. -/
def splitStr (p : Char → Bool) (s : String) : List String :=
  (splitChars p s.data).map String.mk

/-- `pat` starts at some position of the character list. -/
def strContainsAux (pat : List Char) : List Char → Bool
  | [] => pat.isEmpty
  | c :: rest => pat.isPrefixOf (c :: rest) || strContainsAux pat rest

/-- `pat` occurs as a contiguous substring of `s` (JS `RegExp.test` with a
literal pattern / `String.includes`). -/
def strContains (s pat : String) : Bool :=
  strContainsAux pat.data s.data

/-- Numeric value of a list of decimal digit characters (JS `parseInt`
on a digits-only string). -/
def natOfDigits (l : List Char) : Nat :=
  l.foldl (fun a c => a * 10 + (c.toNat - 48)) 0

/-- JS `String.prototype.padStart(2, '0')`. -/
def padStart2 (s : String) : String :=
  if s.length ≥ 2 then s else String.mk (List.replicate (2 - s.length) '0') ++ s

/-- JS `/\d/.test s` (ASCII digits). -/
def hasDigit (s : String) : Bool :=
  s.data.any Char.isDigit

/-! ## `data.js` — CSV parsing -/

/-- One left-to-right scan of a CSV line tracking quote state, from
`parseCSV` in `data.js`: `"` toggles quoted mode unless doubled inside
quotes (escaped quote), `,` outside quotes ends a field, every field is
trimmed.  `cur` is the current field accumulated in reverse. -/
def parseCSVLine (cs : List Char) (inQuotes : Bool) (cur : List Char) : List String :=
  match cs, inQuotes with
  | [], _ => [jsTrim (String.mk cur.reverse)]
  | '"' :: '"' :: rest, true => parseCSVLine rest true ('"' :: cur)
  | '"' :: rest, inQ => parseCSVLine rest (!inQ) cur
  | ',' :: rest, false => jsTrim (String.mk cur.reverse) :: parseCSVLine rest false []
  | c :: rest, inQ => parseCSVLine rest inQ (c :: cur)

/-- `parseCSV` from `data.js`: trim the text, split on newlines, scan
each line. -/
def parseCSV (csvText : String) : List (List String) :=
  (splitStr (fun c => c = '\n') (jsTrim csvText)).map (fun line => parseCSVLine line.data false [])

/-! ## `data.js` — row normalisation -/

/-- The date-likeness test used by `forwardFillDates`: column 0 trimmed
is non-empty, contains a digit, and contains `/` or `-`. -/
def looksLikeDate (dateField : String) : Bool :=
  dateField ≠ "" && hasDigit dateField && (dateField.data.any (fun c => c = '/') || dateField.data.any (fun c => c = '-'))

/-- Recursive worker for `forwardFillDates`, threading the running
`currentDate` accumulator. -/
def forwardFillDatesGo (currentDate : String) : List (List String) → List (List String)
  | [] => []
  | row :: rest =>
    let dateField := jsTrim (row.getD 0 "")
    let currentDate := if looksLikeDate dateField then dateField else currentDate
    (currentDate :: row.drop 1) :: forwardFillDatesGo currentDate rest

/-- `forwardFillDates` from `data.js`: seed the running date empty,
rewrite every row's column 0 with the running date. -/
def forwardFillDates (rows : List (List String)) : List (List String) :=
  forwardFillDatesGo "" rows

/-- `isDateHeaderRow` from `data.js`: column 0 trimmed non-empty and
containing a digit, and at most one of the remaining columns non-empty
after trimming. -/
def isDateHeaderRow (row : List String) : Bool :=
  let dateField := jsTrim (row.getD 0 "")
  if dateField = "" || !hasDigit dateField then false
  else ((row.drop 1).filter (fun f => jsTrim f ≠ "")).length ≤ 1

/-- PM test of `parseTimeStr`: JS regex `/pm|م|مساء/i` on the trimmed
original string. -/
def hasPMIndicator (s : String) : Bool :=
  strContains (lowerStr s) "pm" || strContains s "م" || strContains s "مساء"

/-- AM test of `parseTimeStr`: JS regex `/am|ص|صباح/i` on the trimmed
original string. -/
def hasAMIndicator (s : String) : Bool :=
  strContains (lowerStr s) "am" || strContains s "ص" || strContains s "صباح"

/-- JS `replace(/[^\d:]/g, '')`: keep only ASCII digits and `:`. -/
def stripNonTime (s : String) : String :=
  String.mk (s.data.filter (fun c => c.isDigit || c = ':'))

/-- JS `cleaned.match(/^(\d{1,2}):(\d{2})$/)`: the whole string is one
or two digits, a colon, and exactly two digits; returns the hour value
and the minute digits verbatim. -/
def matchHMM (s : String) : Option (Nat × String) :=
  match s.data with
  | [a, ':', c, d] =>
    if a.isDigit && c.isDigit && d.isDigit then
      some (natOfDigits [a], String.mk [c, d])
    else none
  | [a, b, ':', c, d] =>
    if a.isDigit && b.isDigit && c.isDigit && d.isDigit then
      some (natOfDigits [a, b], String.mk [c, d])
    else none
  | _ => none

/-- The hour adjustment of `parseTimeStr`: without an indicator the
"10 AM Rule" heuristic (`h < 10` adds 12, `h === 12` stays 12, others
unchanged); with an indicator, sequential 12h→24h conversion exactly as
in the source (`if (isPM && h < 12) h += 12; if (isAM && h === 12) h = 0;`). -/
def convert12to24 (isPM isAM : Bool) (h : Nat) : Nat :=
  if !isPM && !isAM then
    if h < 10 then h + 12 else h
  else
    let h1 := if isPM && h < 12 then h + 12 else h
    if isAM && h1 = 12 then 0 else h1

/-- `parseTimeStr` from `data.js`. -/
def parseTimeStr (timeStr : String) : String :=
  if timeStr = "" then ""
  else
    let c0 := jsTrim timeStr
    let isPM := hasPMIndicator c0
    let isAM := hasAMIndicator c0
    match matchHMM (stripNonTime c0) with
    | some (h, m) => padStart2 (toString (convert12to24 isPM isAM h)) ++ ":" ++ m
    | none => jsTrim timeStr

/-- `normalizeDate` from `data.js`: split on `/` or `-` into exactly 3
parts; 4-digit first part means `YYYY/MM/DD`, 4-digit last part means
`D/M/YYYY`; anything else passes through trimmed. -/
def normalizeDate (dateStr : String) : String :=
  if dateStr = "" then ""
  else
    let parts := splitStr (fun c => c = '/' || c = '-') (jsTrim dateStr)
    match parts with
    | [q0, q1, q2] =>
      let p0 := jsTrim q0
      let p1 := jsTrim q1
      let p2 := jsTrim q2
      if p0.length = 4 then p0 ++ "/" ++ padStart2 p1 ++ "/" ++ padStart2 p2
      else if p2.length = 4 then p2 ++ "/" ++ padStart2 p1 ++ "/" ++ padStart2 p0
      else jsTrim dateStr
    | _ => jsTrim dateStr

/-! ## `data.js` — Meeting model and row mapping -/

/-- The `Meeting` record of `data.js` (all fields strings, empty-string
defaults). -/
structure Meeting where
  id : String
  date : String
  project : String
  team : String
  time : String
  via : String
  status : String
  ticketUrl : String
  meetUrl : String
  clientStatus : String
deriving DecidableEq, Repr

/-- A convenient all-empty meeting used when building concrete test
meetings field by field. -/
def emptyMeeting : Meeting :=
  { id := "", date := "", project := "", team := "", time := "", via := ""
    status := "", ticketUrl := "", meetUrl := "", clientStatus := "" }

/-- Loop body of `mapRowsToMeetings`: walk the forward-filled rows,
skip date-header rows and rows with neither project nor time, assign
sequential ids `m-1`, `m-2`, … -/
def mapRowsToMeetingsGo : List (List String) → Nat → List Meeting
  | [], _ => []
  | row :: rest, id =>
    if isDateHeaderRow row then mapRowsToMeetingsGo rest id
    else
      let project := jsTrim (row.getD 1 "")
      let time := jsTrim (row.getD 3 "")
      if project = "" ∧ time = "" then mapRowsToMeetingsGo rest id
      else
        { id := "m-" ++ toString (id + 1)
          date := normalizeDate (jsTrim (row.getD 0 ""))
          project := project
          team := jsTrim (row.getD 2 "")
          time := parseTimeStr time
          via := jsTrim (row.getD 4 "")
          status := jsTrim (row.getD 5 "")
          ticketUrl := jsTrim (row.getD 6 "")
          meetUrl := jsTrim (row.getD 7 "")
          clientStatus := jsTrim (row.getD 8 "") } :: mapRowsToMeetingsGo rest (id + 1)

/-- `mapRowsToMeetings` from `data.js`: drop the header row, forward
fill dates, then map the remaining rows. -/
def mapRowsToMeetings (rows : List (List String)) : List Meeting :=
  mapRowsToMeetingsGo (forwardFillDates (rows.drop 1)) 0

/-- The full parse pipeline applied to a successfully fetched CSV text
(`parseCSV` then `mapRowsToMeetings`), as composed in `fetchMeetings`. -/
def parsedMeetings (text : String) : List Meeting :=
  mapRowsToMeetings (parseCSV text)

/-! ## `data.js` — status classification -/

/-- `isDone` from `data.js`: exclude explicit "not done"/failure
phrases first (`/لم يتم|not|fail/i`), then detect positive completion
(`/تم|نجاح|complete|done|finish/i`). -/
def isDone (m : Meeting) : Bool :=
  if m.status = "" then false
  else
    let s := jsTrim m.status
    if strContains (lowerStr s) "not" || strContains (lowerStr s) "fail"
        || strContains s "لم يتم" then false
    else
      strContains (lowerStr s) "complete" || strContains (lowerStr s) "done"
        || strContains (lowerStr s) "finish" || strContains s "تم" || strContains s "نجاح"

/-- `isCancelled` from `data.js`: `/ملغ|لم يتم|cancel|postpone|مؤجل/i`
on the trimmed, lower-cased status. -/
def isCancelled (m : Meeting) : Bool :=
  if m.status = "" then false
  else
    let s := lowerStr (jsTrim m.status)
    strContains s "cancel" || strContains s "postpone" || strContains s "ملغ"
      || strContains s "لم يتم" || strContains s "مؤجل"

/-! ## `data.js` — demo data, cache and `fetchMeetings` -/

/-- `getDemoMeetings` from `data.js`.  The two demo rows are scheduled
relative to the wall clock (`makeFutureTime(10)` / `makeFutureTime(45)`),
so the current date and the two computed clock strings are inputs of
the model. -/
def getDemoMeetings (today time10 time45 : String) : List Meeting :=
  [ { id := "m-demo-1", date := today, project := "تجربة النظام (Demo)"
      team := "فريق المبيعات", time := time10, via := "عن بعد", status := "خارجي"
      ticketUrl := "#", meetUrl := "#", clientStatus := "نشط" },
    { id := "m-demo-2", date := today, project := "اجتماع المراجعة الأسبوعي"
      team := "الإدارة", time := time45, via := "حضوري", status := "حضوري"
      ticketUrl := "#", meetUrl := "#", clientStatus := "" } ]

/-- The `SyncResult` record `{ meetings, fromCache, error }`. -/
structure SyncResult where
  meetings : List Meeting
  fromCache : Bool
  error : Option String
deriving DecidableEq, Repr

/-- `fetchMeetings` from `data.js`, with the network modelled as an
`Except String String` outcome (raised error message, or raw CSV text)
and localStorage as an explicit `Option (List Meeting)` cache.  On
success the parsed meetings are saved to the cache (`saveMeetings`) and
returned with `fromCache := false`; on any raised error the last cached
snapshot — or, with no cache, the demo data — is returned with
`fromCache := true` and the error message attached
(`loadCachedMeetings`, `cached || getDemoMeetings()`).  The JS function
never rethrows; correspondingly the model is a total function.
Returns the result together with the cache as left behind. -/
def fetchMeetings (demo : List Meeting) (cache : Option (List Meeting))
    (outcome : Except String String) : SyncResult × Option (List Meeting) :=
  match outcome with
  | Except.ok text =>
    let meetings := parsedMeetings text
    ({ meetings := meetings, fromCache := false, error := none }, some meetings)
  | Except.error e =>
    ({ meetings := cache.getD demo, fromCache := true, error := some e }, cache)

/-! ## `data.js` — the `startAutoSync` session state machine -/

/-- `result.meetings.some(newM => …)` of the anti-flap check: some
incoming meeting whose id is found in the last known snapshot was done
there and is now neither done nor cancelled. -/
def isReverting (lastKnown incoming : List Meeting) : Bool :=
  incoming.any fun newM =>
    match lastKnown.find? (fun m => m.id = newM.id) with
    | none => false
    | some oldM => isDone oldM && !isDone newM && !isCancelled newM

/-- State of one `startAutoSync` polling session: `latest` is the
`latestRequestTime` closure variable, `lastKnown` the
`lastKnownMeetings` closure variable, `cache` the localStorage
meetings entry, `pendingVerify` the ticks sitting in the 500 ms
wait before their verification fetch, and `delivered` the sequence of
`callback(...)` invocations so far. -/
structure SessionState where
  latest : Nat
  lastKnown : List Meeting
  cache : Option (List Meeting)
  pendingVerify : List Nat
  delivered : List SyncResult
deriving DecidableEq, Repr

/-- Session state at `startAutoSync` entry: `latestRequestTime = 0`,
`lastKnownMeetings = []`, nothing delivered; the cache may hold
anything from before, `none` here. -/
def initialSession : SessionState :=
  { latest := 0, lastKnown := [], cache := none, pendingVerify := [], delivered := [] }

deriving instance DecidableEq for Except

/-- The atomic event-loop segments of one `poll` tick.  `start t` is the
synchronous prefix of `poll` (`thisRequestTime = Date.now();
latestRequestTime = thisRequestTime`).  `resolveFirst t outcome` is the
continuation after `await fetchMeetings()` resolves.  `resolveVerify t
outcome` is the continuation after the 500 ms wait plus the
verification `await fetchMeetings()` resolve.  JavaScript runs each
segment atomically; overlapping ticks interleave only at these points. -/
inductive SyncEvent where
  | start (t : Nat)
  | resolveFirst (t : Nat) (outcome : Except String String)
  | resolveVerify (t : Nat) (outcome : Except String String)
deriving DecidableEq, Repr

/-- One step of the session machine, following the body of `poll` in
`startAutoSync`: after the first fetch resolves, the stale check
(`thisRequestTime !== latestRequestTime`) runs, then the anti-flap
check; a suspected reversion parks the tick for verification instead of
delivering.  After the verification fetch resolves, the stale check
runs again, then the reversion is re-evaluated against `lastKnown`:
if still present, the verification result is delivered, otherwise the
snapshot is dropped.  The cache is updated by `fetchMeetings` itself in
both resolution events, before any guard runs. -/
def syncStep (demo : List Meeting) (s : SessionState) : SyncEvent → SessionState
  | SyncEvent.start t => { s with latest := t }
  | SyncEvent.resolveFirst t outcome =>
    let fr := fetchMeetings demo s.cache outcome
    let result := fr.1
    let s := { s with cache := fr.2 }
    if t ≠ s.latest then s
    else if s.lastKnown ≠ [] ∧ result.meetings ≠ [] ∧ isReverting s.lastKnown result.meetings then
      { s with pendingVerify := t :: s.pendingVerify }
    else
      { s with lastKnown := result.meetings, delivered := s.delivered ++ [result] }
  | SyncEvent.resolveVerify t outcome =>
    if t ∈ s.pendingVerify then
      let fr := fetchMeetings demo s.cache outcome
      let verifyResult := fr.1
      let s := { s with cache := fr.2, pendingVerify := s.pendingVerify.erase t }
      if t ≠ s.latest then s
      else if isReverting s.lastKnown verifyResult.meetings then
        { s with lastKnown := verifyResult.meetings, delivered := s.delivered ++ [verifyResult] }
      else s
    else s

/-- A session run: fold the event trace through `syncStep`. -/
def runTrace (demo : List Meeting) (s : SessionState) (evs : List SyncEvent) : SessionState :=
  evs.foldl (syncStep demo) s

/-! ## `notifications.js` (file-based-audio version) — alert engine -/

/-- `getEngineerPrefix` from `notifications.js`: map the team string to
an audio file prefix by substring matching (lower-cased first, though
the matched substrings are Arabic). -/
def getEngineerPrefix (teamName : String) : Option Char :=
  if teamName = "" then none
  else
    let lowerName := lowerStr teamName
    if strContains lowerName "مجاهد" then some 'm'
    else if strContains lowerName "شادي" then some 's'
    else if strContains lowerName "أشرف" || strContains lowerName "اشرف" then some 'a'
    else none

/-- JS `Number(s)` on the fragment reachable from meeting time strings:
the trimmed empty string is `0`, a trimmed nonnegative decimal digit
string is its value, anything else is NaN (`none`). -/
def jsNumber (s : String) : Option Nat :=
  let t := jsTrim s
  if t = "" then some 0
  else if t.data.all Char.isDigit then some (natOfDigits t.data)
  else none

/-- `meeting.time.split(':')` followed by the destructuring
`[h, min] = ….map(Number)` and the `isNaN(h) || isNaN(min)` guard of
`checkMeetingTimers`; yields `h * 60 + min` minutes when both parts are
numbers. -/
def timeToMinutes (time : String) : Option Nat :=
  let parts := splitStr (fun c => c = ':') time
  match jsNumber (parts.getD 0 ""), parts.drop 1 with
  | some h, p1 :: _ =>
    match jsNumber p1 with
    | some min => some (h * 60 + min)
    | none => none
  | _, _ => none

/-- The module-level alert-engine state: the `triggeredNotifications`
dedup set (as a list of keys) and the `lastNotifiedDate` string. -/
structure AlertState where
  triggered : List String
  lastNotifiedDate : String
deriving DecidableEq, Repr

/-- `resetNotificationsIfNewDay` from `notifications.js`: clear the
dedup set and remember the new date exactly when the current local date
string differs from the cached one. -/
def resetNotificationsIfNewDay (st : AlertState) (nowDateStr : String) : AlertState :=
  if nowDateStr ≠ st.lastNotifiedDate then { triggered := [], lastNotifiedDate := nowDateStr }
  else st

/-- The dedup key `${meeting.id}_30min` / `${meeting.id}_5min`. -/
def alertKey (meetingId : String) (minutesType : Nat) : String :=
  meetingId ++ "_" ++ toString minutesType ++ "min"

/-- One `triggerAlert` invocation: sound file prefix (audio plays only
when `prefix` is present), toast and push always accompany the event. -/
structure AlertEvent where
  meetingId : String
  minutesType : Nat
  teamPrefix : Option Char
  diff : Int
deriving DecidableEq, Repr

/-- One threshold window check inside the `checkMeetingTimers` loop:
fire iff `lo ≤ diff ≤ hi` and the key was not yet in the dedup set. -/
def checkThreshold (m : Meeting) (diff : Int) (lo hi : Int) (minutesType : Nat)
    (acc : List String × List AlertEvent) : List String × List AlertEvent :=
  if lo ≤ diff ∧ diff ≤ hi ∧ ¬ alertKey m.id minutesType ∈ acc.1 then
    (alertKey m.id minutesType :: acc.1,
      acc.2 ++ [{ meetingId := m.id, minutesType := minutesType
                  teamPrefix := getEngineerPrefix m.team, diff := diff }])
  else acc

/-- The per-meeting body of the `checkMeetingTimers` loop: skip the
three exact terminal status strings, skip unparsable times, then check
the 30-minute window (`29 ≤ diff ≤ 30`) and the 5-minute window
(`4 ≤ diff ≤ 5`). -/
def checkMeeting (nowMinutes : Int) (acc : List String × List AlertEvent) (m : Meeting) :
    List String × List AlertEvent :=
  if jsTrim m.status = "ملغي" ∨ jsTrim m.status = "لم يتم" ∨ jsTrim m.status = "تم" then acc
  else
    match timeToMinutes m.time with
    | none => acc
    | some meetingMinutes =>
      checkThreshold m ((meetingMinutes : Int) - nowMinutes) 4 5 5
        (checkThreshold m ((meetingMinutes : Int) - nowMinutes) 29 30 30 acc)

/-- `checkMeetingTimers` from `notifications.js`: daily reset, filter to
today's meetings with a non-empty time, then scan each meeting against
both threshold windows.  `nowDateStr` models `new Date().toDateString()`
and `nowMinutes` the minutes-since-midnight clock.  Returns the new
module state and the fired alert events in order. -/
def checkMeetingTimers (meetings : List Meeting) (todayDate : String)
    (nowDateStr : String) (nowMinutes : Int) (st : AlertState) :
    AlertState × List AlertEvent :=
  let st0 := resetNotificationsIfNewDay st nowDateStr
  let todayMeetings := meetings.filter (fun m => m.date = todayDate ∧ m.time ≠ "")
  let r := todayMeetings.foldl (checkMeeting nowMinutes) (st0.triggered, [])
  ({ triggered := r.1, lastNotifiedDate := st0.lastNotifiedDate }, r.2)

/-! ## `notifications.js` — file-based audio (`playNotificationSound`) -/

/-- The play schedule of one `playNotificationSound(filename)` call made
at `callTime` for an audio file lasting `dur` ms: nothing when sound is
disabled; otherwise the cue plays immediately, and `onended` schedules
exactly one repeat 5000 ms after the first play finishes (the
`playCount` flag stops after the second play).  Each interval is
half-open `[start, end)`. -/
def playSchedule (callTime dur : Nat) (soundEnabled : Bool) : List (Nat × Nat) :=
  if soundEnabled then
    [(callTime, callTime + dur), (callTime + dur + 5000, callTime + dur + 5000 + dur)]
  else []

/-- All play intervals produced by a sequence of
`playNotificationSound` calls (sound enabled).  Each call constructs
its own `Audio` element and plays independently; no shared state links
the calls. -/
def systemSchedule (callTimes : List Nat) (dur : Nat) : List (Nat × Nat) :=
  callTimes.flatMap (fun t => playSchedule t dur true)

/-- Number of sounds audible at instant `x` under a schedule. -/
def countPlaying (sched : List (Nat × Nat)) (x : Nat) : Nat :=
  (sched.filter (fun iv => iv.1 ≤ x ∧ x < iv.2)).length

/-! ## Concrete feed texts used in scenario theorems -/

/-- A feed whose single meeting `m-1` carries the completed status `تم`. -/
def doneCSV : String :=
  "date,project,team,time,via,status\n2025/01/01,Proj,Team,10:00,Zoom,تم"

/-- The same feed after the suspicious edit: meeting `m-1` has reverted
to an empty (active) status. -/
def revCSV : String :=
  "date,project,team,time,via,status\n2025/01/01,Proj,Team,10:00,Zoom,"

/-! # Theorems -/

/-- **C7.** `parseTimeStr` on a string whose stripped content matches
`H:MM`/`HH:MM`: without an AM/PM indicator the business-hours heuristic
applies (`hour < 10` adds 12; 10, 11 and 12 are unchanged, in
particular 12 stays 12); with a PM indicator, 12-hour to 24-hour
conversion adds 12 unless the hour is already ≥ 12; with an AM
indicator, 12 becomes 0; and the four spec examples
`"8:00" ↦ "20:00"`, `"11:00" ↦ "11:00"`, `"12:00 pm" ↦ "12:00"`,
`"12:00 am" ↦ "00:00"` hold. -/
theorem parseTimeStr_heuristic :
    (∀ s h mm, hasPMIndicator (jsTrim s) = false → hasAMIndicator (jsTrim s) = false →
      matchHMM (stripNonTime (jsTrim s)) = some (h, mm) →
      parseTimeStr s = padStart2 (toString (if h < 10 then h + 12 else h)) ++ ":" ++ mm) ∧
    (∀ s h mm, hasPMIndicator (jsTrim s) = true → hasAMIndicator (jsTrim s) = false →
      matchHMM (stripNonTime (jsTrim s)) = some (h, mm) →
      parseTimeStr s = padStart2 (toString (if h < 12 then h + 12 else h)) ++ ":" ++ mm) ∧
    (∀ s h mm, hasPMIndicator (jsTrim s) = false → hasAMIndicator (jsTrim s) = true →
      matchHMM (stripNonTime (jsTrim s)) = some (h, mm) →
      parseTimeStr s = padStart2 (toString (if h = 12 then 0 else h)) ++ ":" ++ mm) ∧
    parseTimeStr "8:00" = "20:00" ∧ parseTimeStr "11:00" = "11:00" ∧
    parseTimeStr "12:00 pm" = "12:00" ∧ parseTimeStr "12:00 am" = "00:00" := by
  refine ⟨?_, ?_, ?_, by decide, by decide, by decide, by decide⟩ <;>
  · intro s h mm hpm ham hmatch
    have hs : ¬ s = "" := by
      intro h0
      rw [h0] at hmatch
      rw [show matchHMM (stripNonTime (jsTrim "")) = none from by decide] at hmatch
      exact Option.noConfusion hmatch
    simp only [parseTimeStr, if_neg hs, hmatch, hpm, ham, convert12to24]
    simp

/-- Witness for C7: the no-indicator heuristic instantiated at `"9:15"`. -/
theorem parseTimeStr_heuristic_witness : parseTimeStr "9:15" = "21:15" := by
  have h := parseTimeStr_heuristic.1 "9:15" 9 "15" (by decide) (by decide) (by decide)
  rw [h]
  decide

/-- **C4.** The `fetchMeetings` error contract: a raised failure yields
`fromCache = true`, the error message, and the cached snapshot (or demo
data with no cache); success yields the freshly parsed meetings with
`fromCache = false` and no error; and `error` is set iff `fromCache`.
The model is a total function, so no failure escapes as an exception. -/
theorem fetchMeetings_error_contract :
    ∀ today t10 t45 cache text e,
      (fetchMeetings (getDemoMeetings today t10 t45) cache (Except.ok text)).1.fromCache = false ∧
      (fetchMeetings (getDemoMeetings today t10 t45) cache (Except.ok text)).1.error = none ∧
      (fetchMeetings (getDemoMeetings today t10 t45) cache (Except.ok text)).1.meetings
        = parsedMeetings text ∧
      (fetchMeetings (getDemoMeetings today t10 t45) cache (Except.error e)).1.fromCache = true ∧
      (fetchMeetings (getDemoMeetings today t10 t45) cache (Except.error e)).1.error = some e ∧
      (∀ ms, cache = some ms →
        (fetchMeetings (getDemoMeetings today t10 t45) cache (Except.error e)).1.meetings = ms) ∧
      (cache = none →
        (fetchMeetings (getDemoMeetings today t10 t45) cache (Except.error e)).1.meetings
          = getDemoMeetings today t10 t45) ∧
      (∀ outcome,
        (fetchMeetings (getDemoMeetings today t10 t45) cache outcome).1.error ≠ none
          ↔ (fetchMeetings (getDemoMeetings today t10 t45) cache outcome).1.fromCache = true) := by
  intro today t10 t45 cache text e
  refine ⟨rfl, rfl, rfl, rfl, rfl, ?_, ?_, ?_⟩
  · intro ms hms
    simp [fetchMeetings, hms]
  · intro hnone
    simp [fetchMeetings, hnone]
  · intro outcome
    cases outcome <;> simp [fetchMeetings]

/-- Witness for C4: the contract instantiated with a one-meeting cache
and a network error. -/
theorem fetchMeetings_error_contract_witness :
    (fetchMeetings (getDemoMeetings "2025/01/01" "10:10" "10:45") (some [emptyMeeting])
      (Except.error "boom")).1.meetings = [emptyMeeting] ∧
    (fetchMeetings (getDemoMeetings "2025/01/01" "10:10" "10:45") none
      (Except.error "boom")).1.meetings = getDemoMeetings "2025/01/01" "10:10" "10:45" := by
  exact ⟨(fetchMeetings_error_contract "2025/01/01" "10:10" "10:45" (some [emptyMeeting]) "" "boom").2.2.2.2.2.1
          [emptyMeeting] rfl,
        (fetchMeetings_error_contract "2025/01/01" "10:10" "10:45" none "" "boom").2.2.2.2.2.2.1 rfl⟩

/-- **C9 counterexample.** Audio cues are *not* serialized system-wide:
`playNotificationSound` creates an independent `Audio` element per
call, so two cues fired 100 ms apart are both audible at once — there
is no queue and no currently-playing flag. -/
theorem audio_not_serialized_counterexample :
    ¬ (∀ callTimes dur x, countPlaying (systemSchedule callTimes dur) x ≤ 1) := by
  intro h
  have h2 := h [0, 100] 1000 500
  revert h2
  decide

/-- **C9 amended.** Each cue plays exactly twice, the repeat starting
exactly 5000 ms after the first play ends; a single cue never overlaps
its own repeat; sound disabled plays nothing.  Cues are not serialized
against each other. -/
theorem playNotificationSound_plays_twice :
    ∀ t dur x,
      playSchedule t dur false = [] ∧
      (playSchedule t dur true).length = 2 ∧
      ((playSchedule t dur true).getD 1 (0, 0)).1
        = ((playSchedule t dur true).getD 0 (0, 0)).2 + 5000 ∧
      countPlaying (playSchedule t dur true) x ≤ 1 := by
  intro t dur x
  refine ⟨rfl, rfl, by simp [playSchedule], ?_⟩
  simp only [countPlaying, playSchedule, if_pos]
  by_cases h1 : t ≤ x ∧ x < t + dur <;>
    by_cases h2 : t + dur + 5000 ≤ x ∧ x < t + dur + 5000 + dur <;>
      first
        | (simp [List.filter, h1, h2]; omega)
        | simp [List.filter, h1, h2]

/-! ## Alert-engine helper predicates and fold lemmas -/

/-- Two alert events concern the same `(meetingId, threshold)` pair. -/
def samePair (a b : AlertEvent) : Prop :=
  a.meetingId = b.meetingId ∧ a.minutesType = b.minutesType

/-- `ev` is an alert the `checkMeetingTimers` loop body can emit for
meeting `m`: the meeting passed the exact-string terminal-status skip
and the time parse, and the diff landed in the fired window. -/
def eventSource (nowMinutes : Int) (m : Meeting) (ev : AlertEvent) : Prop :=
  ev.meetingId = m.id ∧ ev.teamPrefix = getEngineerPrefix m.team ∧
  jsTrim m.status ≠ "ملغي" ∧ jsTrim m.status ≠ "لم يتم" ∧ jsTrim m.status ≠ "تم" ∧
  ∃ mm, timeToMinutes m.time = some mm ∧ ev.diff = (mm : Int) - nowMinutes ∧
    ((ev.minutesType = 30 ∧ 29 ≤ ev.diff ∧ ev.diff ≤ 30) ∨
     (ev.minutesType = 5 ∧ 4 ≤ ev.diff ∧ ev.diff ≤ 5))

theorem checkThreshold_keys_mono {m diff lo hi minutesType acc k} (hk : k ∈ acc.1) :
    k ∈ (checkThreshold m diff lo hi minutesType acc).1 := by
  unfold checkThreshold
  split
  · exact List.mem_cons_of_mem _ hk
  · exact hk

theorem checkThreshold_events_mono {m diff lo hi minutesType acc ev} (hev : ev ∈ acc.2) :
    ev ∈ (checkThreshold m diff lo hi minutesType acc).2 := by
  unfold checkThreshold
  split
  · exact List.mem_append_left _ hev
  · exact hev

theorem checkThreshold_event_new {m diff lo hi minutesType acc ev}
    (hev : ev ∈ (checkThreshold m diff lo hi minutesType acc).2) :
    ev ∈ acc.2 ∨
      (ev = { meetingId := m.id, minutesType := minutesType
              teamPrefix := getEngineerPrefix m.team, diff := diff } ∧
        lo ≤ diff ∧ diff ≤ hi ∧
        alertKey m.id minutesType ∉ acc.1 ∧
        alertKey m.id minutesType ∈ (checkThreshold m diff lo hi minutesType acc).1) := by
  unfold checkThreshold at hev ⊢
  split at hev
  · rename_i h
    rcases List.mem_append.mp hev with h1 | h1
    · exact Or.inl h1
    · refine Or.inr ⟨List.mem_singleton.mp h1, h.1, h.2.1, h.2.2, ?_⟩
      simp [if_pos h]
  · exact Or.inl hev

theorem checkThreshold_key_new {m diff lo hi minutesType acc k}
    (hk : k ∈ (checkThreshold m diff lo hi minutesType acc).1) :
    k ∈ acc.1 ∨
      (k = alertKey m.id minutesType ∧
        { meetingId := m.id, minutesType := minutesType
          teamPrefix := getEngineerPrefix m.team, diff := diff }
          ∈ (checkThreshold m diff lo hi minutesType acc).2) := by
  unfold checkThreshold at hk ⊢
  split at hk
  · rcases List.mem_cons.mp hk with h1 | h1
    · rename_i h
      refine Or.inr ⟨h1, ?_⟩
      simp [if_pos h]
    · exact Or.inl h1
  · exact Or.inl hk

/-- Case analysis of the `checkMeetingTimers` loop body: either the
meeting is skipped (terminal status string or unparsable time) and the
accumulator is unchanged, or both threshold windows are checked in
sequence on `diff = meetingMinutes - nowMinutes`. -/
theorem checkMeeting_eq (nowMinutes : Int) (acc : List String × List AlertEvent) (m : Meeting) :
    checkMeeting nowMinutes acc m = acc ∨
    ∃ mm, timeToMinutes m.time = some mm ∧
      jsTrim m.status ≠ "ملغي" ∧ jsTrim m.status ≠ "لم يتم" ∧ jsTrim m.status ≠ "تم" ∧
      checkMeeting nowMinutes acc m =
        checkThreshold m ((mm : Int) - nowMinutes) 4 5 5
          (checkThreshold m ((mm : Int) - nowMinutes) 29 30 30 acc) := by
  unfold checkMeeting
  split
  · exact Or.inl rfl
  · rename_i hstatus
    push_neg at hstatus
    rcases h : timeToMinutes m.time with _ | mm
    · exact Or.inl rfl
    · exact Or.inr ⟨mm, rfl, hstatus.1, hstatus.2.1, hstatus.2.2, rfl⟩

theorem checkMeeting_keys_mono {nowMinutes acc m k} (hk : k ∈ acc.1) :
    k ∈ (checkMeeting nowMinutes acc m).1 := by
  rcases checkMeeting_eq nowMinutes acc m with heq | ⟨mm, _, _, _, _, heq⟩ <;> rw [heq]
  · exact hk
  · exact checkThreshold_keys_mono (checkThreshold_keys_mono hk)

theorem checkMeeting_events_mono {nowMinutes acc m ev} (hev : ev ∈ acc.2) :
    ev ∈ (checkMeeting nowMinutes acc m).2 := by
  rcases checkMeeting_eq nowMinutes acc m with heq | ⟨mm, _, _, _, _, heq⟩ <;> rw [heq]
  · exact hev
  · exact checkThreshold_events_mono (checkThreshold_events_mono hev)

theorem checkMeeting_event_new {nowMinutes acc m ev}
    (hev : ev ∈ (checkMeeting nowMinutes acc m).2) :
    ev ∈ acc.2 ∨
      (eventSource nowMinutes m ev ∧
        alertKey ev.meetingId ev.minutesType ∉ acc.1 ∧
        alertKey ev.meetingId ev.minutesType ∈ (checkMeeting nowMinutes acc m).1) := by
  rcases checkMeeting_eq nowMinutes acc m with heq | ⟨mm, htime, h1, h2, h3, heq⟩
  · rw [heq] at hev
    exact Or.inl hev
  · rw [heq] at hev
    rcases checkThreshold_event_new hev with h5 | h5
    · rcases checkThreshold_event_new h5 with h30 | h30
      · exact Or.inl h30
      · refine Or.inr ⟨?_, ?_, ?_⟩
        · rw [h30.1]
          exact ⟨rfl, rfl, h1, h2, h3, mm, htime, rfl, Or.inl ⟨rfl, h30.2.1, h30.2.2.1⟩⟩
        · rw [h30.1]
          exact h30.2.2.2.1
        · rw [heq, h30.1]
          exact checkThreshold_keys_mono h30.2.2.2.2
    · refine Or.inr ⟨?_, ?_, ?_⟩
      · rw [h5.1]
        exact ⟨rfl, rfl, h1, h2, h3, mm, htime, rfl, Or.inr ⟨rfl, h5.2.1, h5.2.2.1⟩⟩
      · rw [h5.1]
        intro hmem
        exact h5.2.2.2.1 (checkThreshold_keys_mono hmem)
      · rw [heq, h5.1]
        exact h5.2.2.2.2

theorem checkMeeting_key_new {nowMinutes acc m k}
    (hk : k ∈ (checkMeeting nowMinutes acc m).1) :
    k ∈ acc.1 ∨ ∃ ev, ev ∈ (checkMeeting nowMinutes acc m).2 ∧
      k = alertKey ev.meetingId ev.minutesType := by
  rcases checkMeeting_eq nowMinutes acc m with heq | ⟨mm, htime, h1, h2, h3, heq⟩
  · rw [heq] at hk
    exact Or.inl hk
  · rw [heq] at hk
    rcases checkThreshold_key_new hk with h5 | h5
    · rcases checkThreshold_key_new h5 with h30 | h30
      · exact Or.inl h30
      · have hmem := @checkThreshold_events_mono m ((mm : Int) - nowMinutes) 4 5 5
          (checkThreshold m ((mm : Int) - nowMinutes) 29 30 30 acc) _ h30.2
        rw [← heq] at hmem
        exact Or.inr ⟨_, hmem, h30.1⟩
    · have hmem := h5.2
      rw [← heq] at hmem
      exact Or.inr ⟨_, hmem, h5.1⟩

theorem checkThreshold_inv {m : Meeting} {diff lo hi : Int} {minutesType : Nat}
    {acc : List String × List AlertEvent}
    (hrec : ∀ ev ∈ acc.2, alertKey ev.meetingId ev.minutesType ∈ acc.1)
    (hpw : List.Pairwise (fun a b => ¬ samePair a b) acc.2) :
    (∀ ev ∈ (checkThreshold m diff lo hi minutesType acc).2,
        alertKey ev.meetingId ev.minutesType ∈ (checkThreshold m diff lo hi minutesType acc).1) ∧
    List.Pairwise (fun a b => ¬ samePair a b) (checkThreshold m diff lo hi minutesType acc).2 := by
  unfold checkThreshold
  split
  · rename_i hcond
    constructor
    · intro ev hev
      rcases List.mem_append.mp hev with h1 | h1
      · exact List.mem_cons_of_mem _ (hrec ev h1)
      · rw [List.mem_singleton.mp h1]
        exact List.mem_cons_self _ _
    · rw [List.pairwise_append]
      refine ⟨hpw, List.pairwise_singleton _ _, ?_⟩
      intro a ha b hb hab
      rw [List.mem_singleton.mp hb] at hab
      rcases hab with ⟨hid, hty⟩
      have hid2 : a.meetingId = m.id := hid
      have hty2 : a.minutesType = minutesType := hty
      apply hcond.2.2
      rw [← hid2, ← hty2]
      exact hrec a ha
  · exact ⟨hrec, hpw⟩

theorem checkMeeting_inv {nowMinutes : Int} {acc : List String × List AlertEvent} {m : Meeting}
    (hrec : ∀ ev ∈ acc.2, alertKey ev.meetingId ev.minutesType ∈ acc.1)
    (hpw : List.Pairwise (fun a b => ¬ samePair a b) acc.2) :
    (∀ ev ∈ (checkMeeting nowMinutes acc m).2,
        alertKey ev.meetingId ev.minutesType ∈ (checkMeeting nowMinutes acc m).1) ∧
    List.Pairwise (fun a b => ¬ samePair a b) (checkMeeting nowMinutes acc m).2 := by
  rcases checkMeeting_eq nowMinutes acc m with heq | ⟨mm, _, _, _, _, heq⟩ <;> rw [heq]
  · exact ⟨hrec, hpw⟩
  · exact checkThreshold_inv (checkThreshold_inv hrec hpw).1 (checkThreshold_inv hrec hpw).2

theorem foldl_checkMeeting_keys_mono {nowMinutes : Int} :
    ∀ (l : List Meeting) (acc : List String × List AlertEvent) (k : String),
      k ∈ acc.1 → k ∈ (l.foldl (checkMeeting nowMinutes) acc).1 := by
  intro l
  induction l with
  | nil => exact fun acc k hk => hk
  | cons m rest ih =>
    intro acc k hk
    exact ih _ k (checkMeeting_keys_mono hk)

theorem foldl_checkMeeting_events_mono {nowMinutes : Int} :
    ∀ (l : List Meeting) (acc : List String × List AlertEvent) (ev : AlertEvent),
      ev ∈ acc.2 → ev ∈ (l.foldl (checkMeeting nowMinutes) acc).2 := by
  intro l
  induction l with
  | nil => exact fun acc ev hev => hev
  | cons m rest ih =>
    intro acc ev hev
    exact ih _ ev (checkMeeting_events_mono hev)

theorem foldl_checkMeeting_event_new {nowMinutes : Int} :
    ∀ (l : List Meeting) (acc : List String × List AlertEvent) (ev : AlertEvent),
      ev ∈ (l.foldl (checkMeeting nowMinutes) acc).2 →
      ev ∈ acc.2 ∨ ∃ m ∈ l, eventSource nowMinutes m ev := by
  intro l
  induction l with
  | nil => exact fun acc ev hev => Or.inl hev
  | cons m rest ih =>
    intro acc ev hev
    rcases ih _ ev hev with h1 | ⟨m2, hm2, hsrc⟩
    · rcases checkMeeting_event_new h1 with h2 | h2
      · exact Or.inl h2
      · exact Or.inr ⟨m, List.mem_cons_self _ _, h2.1⟩
    · exact Or.inr ⟨m2, List.mem_cons_of_mem _ hm2, hsrc⟩

theorem foldl_checkMeeting_no_refire {nowMinutes : Int} {meetingId : String} {minutesType : Nat} :
    ∀ (l : List Meeting) (acc : List String × List AlertEvent),
      alertKey meetingId minutesType ∈ acc.1 →
      ∀ ev ∈ (l.foldl (checkMeeting nowMinutes) acc).2,
        ev ∈ acc.2 ∨ ¬ (ev.meetingId = meetingId ∧ ev.minutesType = minutesType) := by
  intro l
  induction l with
  | nil => exact fun acc _ ev hev => Or.inl hev
  | cons m rest ih =>
    intro acc hkey ev hev
    rcases ih _ (checkMeeting_keys_mono hkey) ev hev with h1 | h1
    · rcases checkMeeting_event_new h1 with h2 | h2
      · exact Or.inl h2
      · right
        intro hpair
        apply h2.2.1
        rw [hpair.1, hpair.2]
        exact hkey
    · exact Or.inr h1

theorem foldl_checkMeeting_inv {nowMinutes : Int} :
    ∀ (l : List Meeting) (acc : List String × List AlertEvent),
      (∀ ev ∈ acc.2, alertKey ev.meetingId ev.minutesType ∈ acc.1) →
      List.Pairwise (fun a b => ¬ samePair a b) acc.2 →
      (∀ ev ∈ (l.foldl (checkMeeting nowMinutes) acc).2,
          alertKey ev.meetingId ev.minutesType ∈ (l.foldl (checkMeeting nowMinutes) acc).1) ∧
      List.Pairwise (fun a b => ¬ samePair a b) (l.foldl (checkMeeting nowMinutes) acc).2 := by
  intro l
  induction l with
  | nil => exact fun acc hrec hpw => ⟨hrec, hpw⟩
  | cons m rest ih =>
    intro acc hrec hpw
    have hstep := @checkMeeting_inv nowMinutes acc m hrec hpw
    exact ih _ hstep.1 hstep.2

theorem foldl_checkMeeting_key_new {nowMinutes : Int} :
    ∀ (l : List Meeting) (acc : List String × List AlertEvent) (k : String),
      k ∈ (l.foldl (checkMeeting nowMinutes) acc).1 →
      k ∈ acc.1 ∨ ∃ ev ∈ (l.foldl (checkMeeting nowMinutes) acc).2,
        k = alertKey ev.meetingId ev.minutesType := by
  intro l
  induction l with
  | nil => exact fun acc k hk => Or.inl hk
  | cons m rest ih =>
    intro acc k hk
    rcases ih _ k hk with h1 | ⟨ev, hev, hkey⟩
    · rcases checkMeeting_key_new h1 with h2 | ⟨ev, hev, hkey⟩
      · exact Or.inl h2
      · exact Or.inr ⟨ev,
          foldl_checkMeeting_events_mono rest (checkMeeting nowMinutes acc m) ev hev, hkey⟩
    · exact Or.inr ⟨ev, hev, hkey⟩

/-- **C2 (code bug).** When the flap-guard's verification re-fetch
fails, `fetchMeetings` falls back to the cache — which the suspicious
first fetch has just overwritten with the reverted snapshot — so
`isStillReverting` evaluates against the reverted data itself, holds,
and the reverted snapshot IS delivered to the callback (tagged
`fromCache := true`), contrary to the in-code comment "If Verify
failed or is stale, abort" and to the spec.  Concretely: tick 1
delivers meeting `m-1` as done; tick 2 fetches `m-1` reverted to
active; tick 2's verification fetch raises a network error; the
callback nevertheless receives the reverted snapshot. -/
theorem verifyFailure_delivers_reverted_snapshot :
    (runTrace [] initialSession
      [SyncEvent.start 1, SyncEvent.resolveFirst 1 (Except.ok doneCSV),
       SyncEvent.start 2, SyncEvent.resolveFirst 2 (Except.ok revCSV),
       SyncEvent.resolveVerify 2 (Except.error "network down")]).delivered
      = [{ meetings := parsedMeetings doneCSV, fromCache := false, error := none },
         { meetings := parsedMeetings revCSV, fromCache := true, error := some "network down" }]
    ∧ isDone ((parsedMeetings doneCSV).getD 0 emptyMeeting) = true
    ∧ isDone ((parsedMeetings revCSV).getD 0 emptyMeeting) = false
    ∧ isCancelled ((parsedMeetings revCSV).getD 0 emptyMeeting) = false
    ∧ ((parsedMeetings revCSV).getD 0 emptyMeeting).id
        = ((parsedMeetings doneCSV).getD 0 emptyMeeting).id := by
  decide

/-- A meeting whose free-text status classifies as cancelled
(`isCancelled` matches the substring `cancel`) but is not literally one
of the three strings `checkMeetingTimers` skips. -/
def cancelledMeeting : Meeting :=
  { emptyMeeting with id := "m-1", date := "2025/01/01", time := "10:30", status := "cancelled" }

/-- **C6 counterexample.** `checkMeetingTimers` skips only the three
exact status strings `ملغي`, `لم يتم`, `تم`; a meeting whose status
text classifies as cancelled (`"cancelled"`, matched by `isCancelled`)
still produces an alert event when the tick lands in the 30-minute
window. -/
theorem terminal_status_alert_counterexample :
    isCancelled cancelledMeeting = true ∧
    (checkMeetingTimers [cancelledMeeting] "2025/01/01" "Wed Jan 01 2025" 600
        { triggered := [], lastNotifiedDate := "Wed Jan 01 2025" }).2
      = [{ meetingId := "m-1", minutesType := 30, teamPrefix := none, diff := 30 }] := by
  decide

/-- **C5.** Per-meeting, per-threshold alerts fire at most once per
local calendar day: (1) a pair already in the dedup set cannot re-fire
while the date string is unchanged; (2) within one tick no two events
share a `(meetingId, threshold)` pair; (3) every fired event's key is
recorded in the dedup set; (4) on an unchanged date the dedup set is
not cleared, and (5) when the date string changes the set is cleared,
afterwards holding only this tick's keys; (6) the stored date always
ends up equal to the current date string. -/
theorem alert_fires_at_most_once_per_day :
    ∀ meetings todayDate nowDateStr nowMinutes st meetingId minutesType,
      ((alertKey meetingId minutesType ∈ st.triggered → nowDateStr = st.lastNotifiedDate →
        ∀ ev ∈ (checkMeetingTimers meetings todayDate nowDateStr nowMinutes st).2,
          ¬ (ev.meetingId = meetingId ∧ ev.minutesType = minutesType)) ∧
      List.Pairwise (fun a b => ¬ samePair a b)
        (checkMeetingTimers meetings todayDate nowDateStr nowMinutes st).2 ∧
      (∀ ev ∈ (checkMeetingTimers meetings todayDate nowDateStr nowMinutes st).2,
        alertKey ev.meetingId ev.minutesType
          ∈ (checkMeetingTimers meetings todayDate nowDateStr nowMinutes st).1.triggered) ∧
      (nowDateStr = st.lastNotifiedDate → ∀ k ∈ st.triggered,
        k ∈ (checkMeetingTimers meetings todayDate nowDateStr nowMinutes st).1.triggered) ∧
      (nowDateStr ≠ st.lastNotifiedDate →
        ∀ k ∈ (checkMeetingTimers meetings todayDate nowDateStr nowMinutes st).1.triggered,
          ∃ ev ∈ (checkMeetingTimers meetings todayDate nowDateStr nowMinutes st).2,
            k = alertKey ev.meetingId ev.minutesType) ∧
      (checkMeetingTimers meetings todayDate nowDateStr nowMinutes st).1.lastNotifiedDate
        = nowDateStr) := by
  intro meetings todayDate nowDateStr nowMinutes st meetingId minutesType
  by_cases hdate : nowDateStr = st.lastNotifiedDate
  · have hreset : resetNotificationsIfNewDay st nowDateStr = st := by
      simp [resetNotificationsIfNewDay, hdate]
    refine ⟨?_, ?_, ?_, ?_, ?_, ?_⟩
    · intro hkey _ ev hev
      have hev2 : ev ∈ ((meetings.filter (fun m => m.date = todayDate ∧ m.time ≠ "")).foldl
          (checkMeeting nowMinutes) (st.triggered, [])).2 := by
        simpa [checkMeetingTimers, hreset] using hev
      rcases foldl_checkMeeting_no_refire _ _ hkey ev hev2 with h1 | h1
      · simp at h1
      · exact h1
    · have h := (@foldl_checkMeeting_inv nowMinutes
        (meetings.filter (fun m => m.date = todayDate ∧ m.time ≠ ""))
        (st.triggered, ([] : List AlertEvent)) (by intro ev hev; simp at hev)
        (List.Pairwise.nil)).2
      simpa [checkMeetingTimers, hreset] using h
    · have h := (@foldl_checkMeeting_inv nowMinutes
        (meetings.filter (fun m => m.date = todayDate ∧ m.time ≠ ""))
        (st.triggered, ([] : List AlertEvent)) (by intro ev hev; simp at hev)
        (List.Pairwise.nil)).1
      simpa [checkMeetingTimers, hreset] using h
    · intro _ k hk
      have h := @foldl_checkMeeting_keys_mono nowMinutes
        (meetings.filter (fun m => m.date = todayDate ∧ m.time ≠ ""))
        (st.triggered, ([] : List AlertEvent)) k hk
      simpa [checkMeetingTimers, hreset] using h
    · intro hne
      exact absurd hdate hne
    · simp [checkMeetingTimers, resetNotificationsIfNewDay, hdate]
  · have hreset : resetNotificationsIfNewDay st nowDateStr
        = { triggered := [], lastNotifiedDate := nowDateStr } := by
      simp [resetNotificationsIfNewDay, hdate]
    refine ⟨?_, ?_, ?_, ?_, ?_, ?_⟩
    · intro _ hd
      exact absurd hd hdate
    · have h := (@foldl_checkMeeting_inv nowMinutes
        (meetings.filter (fun m => m.date = todayDate ∧ m.time ≠ ""))
        (([] : List String), ([] : List AlertEvent)) (by intro ev hev; simp at hev)
        (List.Pairwise.nil)).2
      simpa [checkMeetingTimers, hreset] using h
    · have h := (@foldl_checkMeeting_inv nowMinutes
        (meetings.filter (fun m => m.date = todayDate ∧ m.time ≠ ""))
        (([] : List String), ([] : List AlertEvent)) (by intro ev hev; simp at hev)
        (List.Pairwise.nil)).1
      simpa [checkMeetingTimers, hreset] using h
    · intro hd
      exact absurd hd hdate
    · intro _ k hk
      have hk2 : k ∈ ((meetings.filter (fun m => m.date = todayDate ∧ m.time ≠ "")).foldl
          (checkMeeting nowMinutes) (([] : List String), ([] : List AlertEvent))).1 := by
        simpa [checkMeetingTimers, hreset] using hk
      rcases foldl_checkMeeting_key_new _ _ k hk2 with h1 | ⟨ev, hev, hkey⟩
      · simp at h1
      · refine ⟨ev, ?_, hkey⟩
        simpa [checkMeetingTimers, hreset] using hev
    · simp [checkMeetingTimers, hreset]

/-- Witness for C5: a second tick on the same date with the key already
recorded fires nothing for that pair. -/
theorem alert_fires_at_most_once_per_day_witness :
    ∀ ev ∈ (checkMeetingTimers [cancelledMeeting] "2025/01/01" "Wed Jan 01 2025" 600
        { triggered := [alertKey "m-1" 30], lastNotifiedDate := "Wed Jan 01 2025" }).2,
      ¬ (ev.meetingId = "m-1" ∧ ev.minutesType = 30) := by
  exact (alert_fires_at_most_once_per_day [cancelledMeeting] "2025/01/01" "Wed Jan 01 2025" 600
    { triggered := [alertKey "m-1" 30], lastNotifiedDate := "Wed Jan 01 2025" } "m-1" 30).1
    (by decide) rfl

/-- **C6 amended.** Every alert event emitted by `checkMeetingTimers`
comes from a meeting scheduled on `todayDate`, with a non-empty,
parsable time, whose trimmed status is none of the three exact strings
`ملغي`, `لم يتم`, `تم` — but status-text *classification* (`isDone` /
`isCancelled`) is not consulted, so statuses merely classified as
terminal (e.g. `"cancelled"`, `"تم بنجاح"`) do alert (see the
counterexample). -/
theorem alert_events_only_from_eligible_meetings :
    ∀ meetings todayDate nowDateStr nowMinutes st ev,
      ev ∈ (checkMeetingTimers meetings todayDate nowDateStr nowMinutes st).2 →
      ∃ m, m ∈ meetings ∧ m.date = todayDate ∧ m.time ≠ "" ∧ eventSource nowMinutes m ev := by
  intro meetings todayDate nowDateStr nowMinutes st ev hev
  have hev2 : ev ∈ ((meetings.filter (fun m => m.date = todayDate ∧ m.time ≠ "")).foldl
      (checkMeeting nowMinutes) ((resetNotificationsIfNewDay st nowDateStr).triggered, [])).2 := by
    simpa [checkMeetingTimers] using hev
  rcases foldl_checkMeeting_event_new _ _ ev hev2 with h1 | ⟨m, hm, hsrc⟩
  · simp at h1
  · have hm2 := List.mem_filter.mp hm
    have hcond : m.date = todayDate ∧ m.time ≠ "" := by
      have := hm2.2
      simpa using this
    exact ⟨m, hm2.1, hcond.1, hcond.2, hsrc⟩

/-- Witness for C6's amended theorem: the eligibility facts extracted
for the concrete fired event of the counterexample scenario. -/
theorem alert_events_only_from_eligible_meetings_witness :
    ∃ m, m ∈ [cancelledMeeting] ∧ m.date = "2025/01/01" ∧ m.time ≠ "" ∧
      eventSource 600 m
        { meetingId := "m-1", minutesType := 30, teamPrefix := none, diff := 30 } := by
  exact alert_events_only_from_eligible_meetings [cancelledMeeting] "2025/01/01"
    "Wed Jan 01 2025" 600 { triggered := [], lastNotifiedDate := "Wed Jan 01 2025" }
    { meetingId := "m-1", minutesType := 30, teamPrefix := none, diff := 30 }
    (by decide)

theorem looksLikeDate_ne_empty {d : String} (h : looksLikeDate d = true) : d ≠ "" := by
  intro hd
  rw [hd] at h
  exact absurd h (by decide)

theorem forwardFillDatesGo_length :
    ∀ (rows : List (List String)) (cur : String),
      (forwardFillDatesGo cur rows).length = rows.length := by
  intro rows
  induction rows with
  | nil => intro cur; rfl
  | cons r rest ih =>
    intro cur
    simp only [forwardFillDatesGo, List.length_cons]
    rw [ih]

theorem forwardFillDatesGo_ne_empty :
    ∀ (rows : List (List String)) (cur : String), cur ≠ "" →
      ∀ j, j < rows.length → ((forwardFillDatesGo cur rows).getD j []).getD 0 "" ≠ "" := by
  intro rows
  induction rows with
  | nil =>
    intro cur _ j hj
    exact absurd hj (by simp)
  | cons r rest ih =>
    intro cur hcur j hj
    have hcur2 : (if looksLikeDate (jsTrim (r.getD 0 "")) then jsTrim (r.getD 0 "") else cur) ≠ "" := by
      split
      · exact looksLikeDate_ne_empty (by assumption)
      · exact hcur
    cases j with
    | zero =>
      simpa [forwardFillDatesGo] using hcur2
    | succ j =>
      have hj2 : j < rest.length := by simpa using hj
      simpa [forwardFillDatesGo] using ih _ hcur2 j hj2

theorem forwardFillDatesGo_after_date :
    ∀ (rows : List (List String)) (cur : String) (i j : Nat), i < j → j < rows.length →
      looksLikeDate (jsTrim ((rows.getD i []).getD 0 "")) = true →
      ((forwardFillDatesGo cur rows).getD j []).getD 0 "" ≠ "" := by
  intro rows
  induction rows with
  | nil =>
    intro cur i j _ hj _
    exact absurd hj (by simp)
  | cons r rest ih =>
    intro cur i j hij hj hdate
    cases i with
    | zero =>
      have hd : looksLikeDate (jsTrim (r.getD 0 "")) = true := by simpa using hdate
      cases j with
      | zero => exact absurd hij (by omega)
      | succ j =>
        have hj2 : j < rest.length := by simpa using hj
        have hne : (if looksLikeDate (jsTrim (r.getD 0 "")) then jsTrim (r.getD 0 "") else cur) ≠ "" := by
          rw [if_pos hd]
          exact looksLikeDate_ne_empty hd
        simpa [forwardFillDatesGo] using forwardFillDatesGo_ne_empty rest _ hne j hj2
    | succ i =>
      cases j with
      | zero => exact absurd hij (by omega)
      | succ j =>
        have hj2 : j < rest.length := by simpa using hj
        have hdate2 : looksLikeDate (jsTrim ((rest.getD i []).getD 0 "")) = true := by
          simpa using hdate
        simpa [forwardFillDatesGo] using ih _ i j (by omega) hj2 hdate2

/-- **C8.** Once some row `i` carries a date-like column 0 (non-empty
after trimming, containing a digit and a `/` or `-`), every later row
`j > i` of `forwardFillDates`' output has a non-empty column 0: the
running date is seeded by row `i` at the latest and never becomes empty
again. -/
theorem forwardFillDates_no_empty_after_date :
    ∀ (rows : List (List String)) (i j : Nat), i < j → j < rows.length →
      looksLikeDate (jsTrim ((rows.getD i []).getD 0 "")) = true →
      ((forwardFillDates rows).getD j []).getD 0 "" ≠ "" := by
  intro rows i j hij hj hdate
  exact forwardFillDatesGo_after_date rows "" i j hij hj hdate

/-- Witness for C8: a date-header row followed by a dateless row; the
dateless row's column 0 is forward-filled and non-empty. -/
theorem forwardFillDates_no_empty_after_date_witness :
    ((forwardFillDates [["2025/01/01"], ["", "Proj", "Team", "10:00"]]).getD 1 []).getD 0 ""
      ≠ "" := by
  exact forwardFillDates_no_empty_after_date [["2025/01/01"], ["", "Proj", "Team", "10:00"]]
    0 1 (by decide) (by decide) (by decide)

/-! ## Sync-session trace lemmas -/

theorem runTrace_append (demo : List Meeting) (s : SessionState) (l1 l2 : List SyncEvent) :
    runTrace demo s (l1 ++ l2) = runTrace demo (runTrace demo s l1) l2 := by
  simp [runTrace, List.foldl_append]

theorem syncStep_latest_resolveFirst (demo : List Meeting) (s : SessionState)
    (t : Nat) (o : Except String String) :
    (syncStep demo s (SyncEvent.resolveFirst t o)).latest = s.latest := by
  simp only [syncStep]
  split_ifs <;> rfl

theorem syncStep_latest_resolveVerify (demo : List Meeting) (s : SessionState)
    (t : Nat) (o : Except String String) :
    (syncStep demo s (SyncEvent.resolveVerify t o)).latest = s.latest := by
  simp only [syncStep]
  split_ifs <;> rfl

theorem runTrace_latest_ne (demo : List Meeting) (tA : Nat) :
    ∀ (evs : List SyncEvent) (s : SessionState), s.latest ≠ tA →
      (∀ t, SyncEvent.start t ∈ evs → t ≠ tA) →
      (runTrace demo s evs).latest ≠ tA := by
  intro evs
  induction evs with
  | nil => exact fun s hs _ => hs
  | cons e rest ih =>
    intro s hs hstarts
    have hstep : (syncStep demo s e).latest ≠ tA := by
      cases e with
      | start t => exact hstarts t (List.mem_cons_self _ _)
      | resolveFirst t o => rw [syncStep_latest_resolveFirst]; exact hs
      | resolveVerify t o => rw [syncStep_latest_resolveVerify]; exact hs
    exact ih _ hstep (fun t ht => hstarts t (List.mem_cons_of_mem _ ht))

theorem syncStep_stale_no_delivery (demo : List Meeting) (s : SessionState)
    (t : Nat) (o : Except String String) (h : s.latest ≠ t) :
    (syncStep demo s (SyncEvent.resolveFirst t o)).delivered = s.delivered ∧
    (syncStep demo s (SyncEvent.resolveVerify t o)).delivered = s.delivered := by
  constructor
  · simp only [syncStep]
    rw [if_pos (Ne.symm h)]
  · simp only [syncStep]
    split_ifs with h1 h2 h3
    · rfl
    · exact absurd (not_not.mp h2).symm h
    · exact absurd (not_not.mp h2).symm h
    · rfl

/-- **C3.** Staleness guard: if tick `A` (timestamp `tA`) starts, then
tick `B` (timestamp `tB ≠ tA`) starts, and `A`'s fetch — first or
verification — resolves after `B` started (with no other tick of
timestamp `tA` starting in between), then that resolution delivers
nothing to the callback: `latestRequestTime` no longer equals `tA`, so
the result is discarded. -/
theorem stale_tick_discarded :
    ∀ demo s (pre mid1 mid2 : List SyncEvent) (tA tB : Nat) (o : Except String String)
      (e : SyncEvent),
      (e = SyncEvent.resolveFirst tA o ∨ e = SyncEvent.resolveVerify tA o) →
      tB ≠ tA →
      (∀ t, SyncEvent.start t ∈ mid2 → t ≠ tA) →
      (runTrace demo s
          (pre ++ SyncEvent.start tA :: mid1 ++ SyncEvent.start tB :: mid2 ++ [e])).delivered
        = (runTrace demo s
            (pre ++ SyncEvent.start tA :: mid1 ++ SyncEvent.start tB :: mid2)).delivered := by
  intro demo s pre mid1 mid2 tA tB o e he hBA hmid2
  have hsplit : pre ++ SyncEvent.start tA :: mid1 ++ SyncEvent.start tB :: mid2 ++ [e]
      = (pre ++ SyncEvent.start tA :: mid1 ++ SyncEvent.start tB :: mid2) ++ [e] := by
    simp
  rw [hsplit, runTrace_append]
  have hsplit2 : pre ++ SyncEvent.start tA :: mid1 ++ SyncEvent.start tB :: mid2
      = (pre ++ SyncEvent.start tA :: mid1 ++ [SyncEvent.start tB]) ++ mid2 := by
    simp
  have hlat : (runTrace demo s
      (pre ++ SyncEvent.start tA :: mid1 ++ SyncEvent.start tB :: mid2)).latest ≠ tA := by
    rw [hsplit2, runTrace_append]
    apply runTrace_latest_ne demo tA mid2 _ _ hmid2
    have : runTrace demo s (pre ++ SyncEvent.start tA :: mid1 ++ [SyncEvent.start tB])
        = syncStep demo (runTrace demo s (pre ++ SyncEvent.start tA :: mid1))
            (SyncEvent.start tB) := by
      rw [show pre ++ SyncEvent.start tA :: mid1 ++ [SyncEvent.start tB]
          = (pre ++ SyncEvent.start tA :: mid1) ++ [SyncEvent.start tB] from by simp,
        runTrace_append]
      rfl
    rw [this]
    exact hBA
  rcases he with rfl | rfl
  · exact (syncStep_stale_no_delivery demo _ tA o hlat).1
  · exact (syncStep_stale_no_delivery demo _ tA o hlat).2

/-- Witness for C3: tick 1 starts, tick 2 starts, then tick 1's fetch
resolves — nothing is delivered. -/
theorem stale_tick_discarded_witness :
    (runTrace [] initialSession
        [SyncEvent.start 1, SyncEvent.start 2, SyncEvent.resolveFirst 1 (Except.ok doneCSV)]).delivered
      = (runTrace [] initialSession [SyncEvent.start 1, SyncEvent.start 2]).delivered := by
  exact stale_tick_discarded [] initialSession [] [] [] 1 2 (Except.ok doneCSV)
    (SyncEvent.resolveFirst 1 (Except.ok doneCSV)) (Or.inl rfl) (by decide)
    (fun t ht => absurd ht (List.not_mem_nil _))

/-- **C1.** Flap/reversion guard.  If the last delivered snapshot holds
a meeting that `isDone` classifies as done and the freshly parsed
snapshot carries the same id as neither done nor cancelled, then the
first-fetch resolution of a current tick delivers nothing: it only
parks the tick for verification, leaving `lastKnownMeetings` (and the
delivered log) unchanged.  The later verification resolution delivers
if and only if the reversion check still holds against the verification
fetch's meetings; when it does not, nothing is delivered and the
previous snapshot stays the last-known reference. -/
theorem flap_guard_requires_confirmation :
    ∀ demo s t text nm oldM,
      s.latest = t →
      nm ∈ parsedMeetings text →
      s.lastKnown.find? (fun m => m.id = nm.id) = some oldM →
      isDone oldM = true → isDone nm = false → isCancelled nm = false →
      ((syncStep demo s (SyncEvent.resolveFirst t (Except.ok text))).delivered = s.delivered ∧
       (syncStep demo s (SyncEvent.resolveFirst t (Except.ok text))).lastKnown = s.lastKnown ∧
       (syncStep demo s (SyncEvent.resolveFirst t (Except.ok text))).pendingVerify
         = t :: s.pendingVerify ∧
       (∀ o,
         (isReverting s.lastKnown
             (fetchMeetings demo (some (parsedMeetings text)) o).1.meetings = false →
           (syncStep demo (syncStep demo s (SyncEvent.resolveFirst t (Except.ok text)))
               (SyncEvent.resolveVerify t o)).delivered = s.delivered ∧
           (syncStep demo (syncStep demo s (SyncEvent.resolveFirst t (Except.ok text)))
               (SyncEvent.resolveVerify t o)).lastKnown = s.lastKnown) ∧
         (isReverting s.lastKnown
             (fetchMeetings demo (some (parsedMeetings text)) o).1.meetings = true →
           (syncStep demo (syncStep demo s (SyncEvent.resolveFirst t (Except.ok text)))
               (SyncEvent.resolveVerify t o)).delivered
             = s.delivered ++ [(fetchMeetings demo (some (parsedMeetings text)) o).1]))) := by
  intro demo s t text nm oldM hlat hmem hfind hdone hnd hnc
  have hlk_ne : s.lastKnown ≠ [] := by
    intro h0
    rw [h0] at hfind
    simp at hfind
  have hms_ne : parsedMeetings text ≠ [] := List.ne_nil_of_mem hmem
  have hrev : isReverting s.lastKnown (parsedMeetings text) = true := by
    unfold isReverting
    rw [List.any_eq_true]
    refine ⟨nm, hmem, ?_⟩
    rw [hfind]
    simp [hdone, hnd, hnc]
  have hstale : ¬ (t ≠ s.latest) := fun hne => hne hlat.symm
  have h1 : syncStep demo s (SyncEvent.resolveFirst t (Except.ok text))
      = { s with cache := some (parsedMeetings text), pendingVerify := t :: s.pendingVerify } := by
    simp only [syncStep, fetchMeetings]
    rw [if_neg hstale, if_pos ⟨hlk_ne, hms_ne, hrev⟩]
  refine ⟨by rw [h1], by rw [h1], by rw [h1], ?_⟩
  intro o
  rw [h1]
  have hmem_t : t ∈ t :: s.pendingVerify := List.mem_cons_self _ _
  constructor
  · intro hnotrev
    constructor
    · simp only [syncStep]
      rw [if_pos hmem_t, if_neg hstale, if_neg ?_]
      rw [hnotrev]
      simp
    · simp only [syncStep]
      rw [if_pos hmem_t, if_neg hstale, if_neg ?_]
      rw [hnotrev]
      simp
  · intro hstillrev
    simp only [syncStep]
    rw [if_pos hmem_t, if_neg hstale, if_pos ?_]
    rw [hstillrev]

/-- Witness data for the flap-guard theorem: a session whose last
delivered snapshot is the done meeting of `doneCSV`, currently polling
tick 2. -/
def flapSession : SessionState :=
  { latest := 2, lastKnown := parsedMeetings doneCSV, cache := some (parsedMeetings doneCSV),
    pendingVerify := [], delivered := [] }

/-- Witness for C1: the guard instantiated on the concrete `done → active`
reversion of `revCSV` against `doneCSV`; the suspicious snapshot is not
delivered by the first resolution. -/
theorem flap_guard_requires_confirmation_witness :
    (syncStep [] flapSession (SyncEvent.resolveFirst 2 (Except.ok revCSV))).delivered = [] ∧
    (syncStep [] flapSession (SyncEvent.resolveFirst 2 (Except.ok revCSV))).lastKnown
      = parsedMeetings doneCSV := by
  have h := flap_guard_requires_confirmation [] flapSession 2 revCSV
    ((parsedMeetings revCSV).getD 0 emptyMeeting) ((parsedMeetings doneCSV).getD 0 emptyMeeting)
    rfl (by decide) (by decide) (by decide) (by decide) (by decide)
  exact ⟨h.1, h.2.1⟩

/-- **C10.** `fetchMeetings` persists a successful fetch to the cache
inside the fetch itself, before the staleness and flap guards of
`startAutoSync` run: after any first-fetch resolution with a successful
outcome the cache holds the freshly parsed meetings — even when the
staleness guard discards the tick (`t ≠ latest`) and nothing is
delivered — and a subsequent failing `fetchMeetings` serves exactly
that snapshot as its fallback. -/
theorem fetch_persists_before_guards :
    ∀ demo s t text e,
      (syncStep demo s (SyncEvent.resolveFirst t (Except.ok text))).cache
        = some (parsedMeetings text) ∧
      (t ≠ s.latest →
        (syncStep demo s (SyncEvent.resolveFirst t (Except.ok text))).delivered = s.delivered) ∧
      (fetchMeetings demo (syncStep demo s (SyncEvent.resolveFirst t (Except.ok text))).cache
          (Except.error e)).1.meetings = parsedMeetings text := by
  intro demo s t text e
  have hcache : (syncStep demo s (SyncEvent.resolveFirst t (Except.ok text))).cache
      = some (parsedMeetings text) := by
    simp only [syncStep, fetchMeetings]
    split_ifs <;> rfl
  refine ⟨hcache, ?_, ?_⟩
  · intro hne
    exact (syncStep_stale_no_delivery demo s t (Except.ok text) (Ne.symm hne)).1
  · rw [hcache]
    rfl

/-- Witness for C10: a stale tick (tick 1 resolving while `latest = 2`)
is discarded yet still overwrites the cache, and the next failing fetch
serves its meetings. -/
theorem fetch_persists_before_guards_witness :
    (syncStep [] { initialSession with latest := 2 }
        (SyncEvent.resolveFirst 1 (Except.ok doneCSV))).cache = some (parsedMeetings doneCSV) ∧
    (syncStep [] { initialSession with latest := 2 }
        (SyncEvent.resolveFirst 1 (Except.ok doneCSV))).delivered = [] ∧
    (fetchMeetings []
        (syncStep [] { initialSession with latest := 2 }
          (SyncEvent.resolveFirst 1 (Except.ok doneCSV))).cache
        (Except.error "offline")).1.meetings = parsedMeetings doneCSV := by
  have h := fetch_persists_before_guards [] { initialSession with latest := 2 } 1 doneCSV "offline"
  exact ⟨h.1, h.2.1 (by decide), h.2.2⟩

end Dashboard
